import Mathlib

/-!
Verification of the profit-and-loss analysis dashboard (`app.py`).

The development shallowly embeds the core pipeline of the dashboard:
schema derivation (`load_data`), the filter engine (exact selection and
range-to-date selection), the trend aggregator (`aggregate_profit_trend`),
the breakdown/grand-total stage, the cost-item analyzer
(`analyze_cost_breakdown`) and the rule-based insight generator
(`generate_ai_insights`).

Modelling conventions:
* pandas cells are rationals (`ℚ`); a missing or non-numeric cell of the
  raw file is `Option.none` and numeric coercion (`pd.to_numeric(...,
  errors='coerce').fillna(0)`) is `Option.getD 0`;
* a DataFrame is a list of rows together with the list of column names
  present (column presence is a table-level property in pandas);
* Python string slicing, `int()`, `lstrip('0')` and lexicographic string
  comparison are re-implemented structurally over `String.data` so that
  every definition evaluates inside the kernel;
* a Python exception escaping a stage (caught or not) is modelled by
  `Option.none`;
* `np.inf` produced by the percentage policy is the `Pct.inf`
  constructor of a dedicated percentage type.

Field names follow the spec's English glossary for the Korean source
columns: `periodKey` = 년월, `year` = 년, `month` = 월, `quarter` = 분기,
`yearQuarter` = 년분기, `revenueCode` = 수익코드, `campus` = 캠퍼스,
`brand` = 브랜드, `businessUnit` = 사업부, `revenue` = 매출액,
`totalCost` = 총비용, `operatingProfit` = 영업이익.
-/

namespace PnL

/-- A percentage delta: a finite rational, or the `np.inf` sentinel that the
source's zero-division policy produces. -/
inductive Pct where
  | val (q : ℚ)
  | inf
deriving DecidableEq, Repr

/-- Python string slicing `s[:n]` (structural re-implementation of
`String.take` over the character list). -/
def strTake (s : String) (n : ℕ) : String := ⟨s.data.take n⟩

/-- Python string slicing `s[n:]`. -/
def strDrop (s : String) (n : ℕ) : String := ⟨s.data.drop n⟩

/-- Python `s.lstrip('0')`: remove every leading `'0'` character. -/
def lstripZeros (s : String) : String := ⟨s.data.dropWhile (· == '0')⟩

/-- Python string concatenation `a + b`. -/
def strCat (a b : String) : String := ⟨a.data ++ b.data⟩

/-- Value of a decimal digit character, `none` for a non-digit. -/
def charDigit? (c : Char) : Option ℕ :=
  if '0' ≤ c ∧ c ≤ '9' then some (c.toNat - 48) else none

/-- Accumulate the value of a decimal digit string; `none` on any
non-digit character. -/
def digitsVal? : List Char → ℕ → Option ℕ
  | [], acc => some acc
  | c :: rest, acc =>
    match charDigit? c with
    | some d => digitsVal? rest (acc * 10 + d)
    | none => none

/-- Python `int(s)` on a plain decimal string (optionally signed);
`none` models the `ValueError` that `int()` raises on junk input,
including the empty string. -/
def strToInt? (s : String) : Option ℤ :=
  match s.data with
  | [] => none
  | '-' :: rest =>
    if rest.isEmpty then none else (digitsVal? rest 0).map (fun n => -(n : ℤ))
  | cs => (digitsVal? cs 0).map (fun n => (n : ℤ))

/-- Python strict lexicographic comparison of character lists
(code-point order), used for string `<`. -/
def lexLt : List Char → List Char → Bool
  | [], [] => false
  | [], _ :: _ => true
  | _ :: _, [] => false
  | a :: as, b :: bs =>
    if a < b then true
    else if b < a then false
    else lexLt as bs

/-- Python string `a < b`. -/
def strLt (a b : String) : Bool := lexLt a.data b.data

/-- Python string `a <= b` (`a <= b` iff `¬ b < a` for a total strict
order). -/
def strLe (a b : String) : Bool := !(strLt b a)

/-- The enumerated cost-column list `COST_COLUMNS` of the source,
verbatim. -/
def COST_COLUMNS : List String :=
  ["관리자A", "관리자B", "관리자C", "강사A", "강사B", "강사C", "강사D",
   "4대보험근로자", "4대보험강사D", "퇴직추계", "해지미정산", "인센티브직접", "인센티브간저",
   "경비", "본사급여", "본사4대보험", "본사퇴직추계", "셔틀", "동승자",
   "임차A", "임차B", "임차C", "임차D", "관리비A", "관리비B", "관리비C", "관리비D",
   "청소용역A", "청소용역B", "청소용역C", "청소용역D", "복구충당",
   "공통감가비A", "캠퍼스감가비B", "관별감가비B", "공통감가비B",
   "기타1", "제경비", "카드매출수수료", "공기청정기", "정수기", "캡스", "복합기", "LMS",
   "관마케팅", "캠퍼스마케팅", "관기타2", "캠퍼스기타2"]

/-- The semantic cost-category grouping `COST_CATEGORIES` of the source,
verbatim (an association list, preserving the source's insertion
order). -/
def COST_CATEGORIES : List (String × List String) :=
  [("인건비", ["관리자A", "관리자B", "관리자C", "강사A", "강사B", "강사C", "강사D", "본사급여"]),
   ("4대보험/퇴직", ["4대보험근로자", "4대보험강사D", "퇴직추계", "본사4대보험", "본사퇴직추계"]),
   ("인센티브", ["인센티브직접", "인센티브간저"]),
   ("임차/관리비", ["임차A", "임차B", "임차C", "임차D", "관리비A", "관리비B", "관리비C", "관리비D"]),
   ("용역/청소", ["청소용역A", "청소용역B", "청소용역C", "청소용역D"]),
   ("감가상각", ["공통감가비A", "캠퍼스감가비B", "관별감가비B", "공통감가비B", "복구충당"]),
   ("운영비", ["경비", "셔틀", "동승자", "공기청정기", "정수기", "캡스", "복합기", "LMS"]),
   ("마케팅", ["관마케팅", "캠퍼스마케팅"]),
   ("기타", ["해지미정산", "기타1", "제경비", "카드매출수수료", "관기타2", "캠퍼스기타2"])]

/-- The required dimension columns `FILTER_COLUMNS` of `load_data`. -/
def FILTER_COLUMNS : List String := ["수익코드", "캠퍼스", "브랜드", "사업부"]

/-- Model of `get_quarter`: map a month string to a quarter token.
The Python body calls `int(month_str)` first, which raises on a
non-numeric string; the raise is modelled by `none` (it is caught by
`load_data`'s `try`/`except`, which then returns `None`). -/
def get_quarter (month_str : String) : Option String :=
  match strToInt? month_str with
  | none => none
  | some m =>
    some (if 1 ≤ m ∧ m ≤ 3 then "Q1"
      else if 4 ≤ m ∧ m ≤ 6 then "Q2"
      else if 7 ≤ m ∧ m ≤ 9 then "Q3"
      else if 10 ≤ m ∧ m ≤ 12 then "Q4"
      else "N/A")

/-- One row of the raw uploaded table, before derivation.  `costs` holds
the raw cells of whatever cost columns the file carries. -/
structure RawRow where
  periodKey : String
  revenueCode : Option String
  campus : Option String
  brand : Option String
  businessUnit : Option String
  revenue : Option ℚ
  costs : List (String × Option ℚ)
deriving DecidableEq, Repr

/-- The raw uploaded table: the set of columns present plus the rows. -/
structure RawFrame where
  cols : List String
  rows : List RawRow
deriving DecidableEq, Repr

/-- One derived ledger row, the output of `load_data`'s per-row
derivation.  `costs` holds the numerically coerced cost cells. -/
structure LedgerRow where
  periodKey : String
  year : String
  month : String
  quarter : String
  yearQuarter : String
  revenueCode : String
  campus : String
  brand : String
  businessUnit : String
  revenue : ℚ
  totalCost : ℚ
  operatingProfit : ℚ
  sort_key : ℤ
  costs : List (String × ℚ)
deriving DecidableEq, Repr

/-- A derived DataFrame: columns present plus ledger rows. -/
structure DataFrame where
  cols : List String
  rows : List LedgerRow
deriving DecidableEq, Repr

/-- Per-row derivation performed by `load_data` (lines 326-359 of the
source): calendar fields from the period key, `N/A` for missing
dimensions, numeric coercion of revenue and cost cells, and the
total-cost / operating-profit computation in its two modes.  `none`
models the exception that `astype(int)` or `get_quarter` raises on a
malformed period key. -/
def deriveRow (all_costs_present : Bool) (rr : RawRow) : Option LedgerRow :=
  let y := strTake rr.periodKey 4
  let m := strTake (strDrop rr.periodKey 4) 2
  match get_quarter m, strToInt? rr.periodKey with
  | some q, some sk =>
    let coerced := rr.costs.map (fun p => (p.1, p.2.getD 0))
    let rev := rr.revenue.getD 0
    let tc := if all_costs_present then
        (COST_COLUMNS.map (fun c => (coerced.lookup c).getD 0)).sum
      else 0
    some { periodKey := rr.periodKey, year := y, month := m, quarter := q,
           yearQuarter := strCat (strCat y " ") q,
           revenueCode := rr.revenueCode.getD "N/A",
           campus := rr.campus.getD "N/A",
           brand := rr.brand.getD "N/A",
           businessUnit := rr.businessUnit.getD "N/A",
           revenue := rev, totalCost := tc,
           operatingProfit := if all_costs_present then rev - tc else rev,
           sort_key := sk, costs := coerced }
  | _, _ => none

/-- Derive every row; any per-row failure aborts the load (the vectorized
pandas operations raise for the whole column at once). -/
def deriveRows (all_costs_present : Bool) : List RawRow → Option (List LedgerRow)
  | [] => some []
  | r :: rs =>
    match deriveRow all_costs_present r, deriveRows all_costs_present rs with
    | some lr, some lrs => some (lr :: lrs)
    | _, _ => none

/-- The derived columns that `load_data` adds to the frame. -/
def DERIVED_COLUMNS : List String :=
  ["년", "월", "분기", "년분기", "sort_key", "총비용", "영업이익"]

/-- Model of `load_data`: schema checks for the required columns
(`년월`, the four dimension columns, `매출액`), then per-row derivation.
`none` models every path on which the source returns `None` (missing
required column, or an exception during derivation).  The degraded mode
(some cost column absent from the file) sets `totalCost` to 0 and
`operatingProfit` to `revenue`. -/
def load_data (raw : RawFrame) : Option DataFrame :=
  if "년월" ∈ raw.cols then
    if FILTER_COLUMNS.all (fun c => decide (c ∈ raw.cols)) then
      if "매출액" ∈ raw.cols then
        match deriveRows (COST_COLUMNS.all (fun c => decide (c ∈ raw.cols))) raw.rows with
        | some rs => some ⟨raw.cols ++ DERIVED_COLUMNS, rs⟩
        | none => none
      else none
    else none
  else none

lemma deriveRows_mem {acp : Bool} :
    ∀ {rs : List RawRow} {out : List LedgerRow},
      deriveRows acp rs = some out → ∀ r ∈ out, ∃ rr, deriveRow acp rr = some r := by
  intro rs
  induction rs with
  | nil =>
    intro out h r hr
    simp only [deriveRows, Option.some.injEq] at h
    subst h
    cases hr
  | cons a as ih =>
    intro out h r hr
    simp only [deriveRows] at h
    cases ha : deriveRow acp a with
    | none => rw [ha] at h; cases h
    | some lr =>
      rw [ha] at h
      cases has : deriveRows acp as with
      | none => rw [has] at h; cases h
      | some lrs =>
        rw [has] at h
        simp only [Option.some.injEq] at h
        subst h
        simp only [List.mem_cons] at hr
        rcases hr with rfl | hr
        · exact ⟨a, ha⟩
        · exact ih has r hr

lemma deriveRow_props {acp : Bool} {rr : RawRow} {r : LedgerRow}
    (h : deriveRow acp rr = some r) :
    r.operatingProfit = (if acp then r.revenue - r.totalCost else r.revenue) ∧
    r.totalCost = (if acp then (COST_COLUMNS.map (fun c => (r.costs.lookup c).getD 0)).sum else 0) := by
  simp only [deriveRow] at h
  cases hq : get_quarter (strTake (strDrop rr.periodKey 4) 2) with
  | none => rw [hq] at h; cases h
  | some q =>
    cases hk : strToInt? rr.periodKey with
    | none => rw [hq, hk] at h; cases h
    | some sk =>
      rw [hq, hk] at h
      simp only [Option.some.injEq] at h
      subst h
      cases acp <;> simp

lemma load_data_mode {raw : RawFrame} {out : DataFrame}
    (h : load_data raw = some out) :
    deriveRows (COST_COLUMNS.all (fun c => decide (c ∈ raw.cols))) raw.rows = some out.rows := by
  unfold load_data at h
  split at h
  · split at h
    · split at h
      · cases hd : deriveRows (COST_COLUMNS.all (fun c => decide (c ∈ raw.cols))) raw.rows with
        | none => rw [hd] at h; cases h
        | some rs =>
          rw [hd] at h
          simp only [Option.some.injEq] at h
          subst h
          rfl
      · cases h
    · cases h
  · cases h

/-- C1.  After a successful `load_data`, every derived row satisfies
`operatingProfit = revenue - totalCost`.  In the normal mode (every
enumerated cost column present in the file) `totalCost` is the row-wise
sum of the coerced cost cells; in the degraded mode (some cost column
absent) `totalCost` is 0 and `operatingProfit` equals `revenue`.
(The enumerated cost-column list has 48 entries, not 44 as the claim
counts them; see the counterexample theorem.) -/
theorem c1_operating_profit_identity (raw : RawFrame) (out : DataFrame)
    (h : load_data raw = some out) :
    ∀ r ∈ out.rows,
      r.operatingProfit = r.revenue - r.totalCost ∧
      (COST_COLUMNS.all (fun c => decide (c ∈ raw.cols)) = true →
        r.totalCost = (COST_COLUMNS.map (fun c => (r.costs.lookup c).getD 0)).sum) ∧
      (COST_COLUMNS.all (fun c => decide (c ∈ raw.cols)) = false →
        r.totalCost = 0 ∧ r.operatingProfit = r.revenue) := by
  intro r hr
  obtain ⟨rr, hrr⟩ := deriveRows_mem (load_data_mode h) r hr
  obtain ⟨hop, htc⟩ := deriveRow_props hrr
  cases hacp : COST_COLUMNS.all (fun c => decide (c ∈ raw.cols)) with
  | true =>
    rw [hacp] at hop htc
    simp at hop htc
    refine ⟨hop, ?_, ?_⟩
    · intro _
      exact htc
    · intro hf
      exact Bool.noConfusion hf
  | false =>
    rw [hacp] at hop htc
    simp at hop htc
    refine ⟨?_, ?_, ?_⟩
    · rw [hop, htc, sub_zero]
    · intro ht
      exact Bool.noConfusion ht
    · intro _
      exact ⟨htc, hop⟩

/-- C1 counterexample to the claim's count: the enumerated cost-column
list of the source has 48 entries, not 44. -/
theorem c1_counterexample : COST_COLUMNS.length = 48 ∧ COST_COLUMNS.length ≠ 44 := by
  constructor
  · rfl
  · intro h
    rw [show COST_COLUMNS.length = 48 from rfl] at h
    cases h

/-- A concrete degraded-mode raw frame: all required columns present, no
cost columns. -/
def rawD : RawFrame :=
  { cols := ["년월", "수익코드", "캠퍼스", "브랜드", "사업부", "매출액"],
    rows := [{ periodKey := "202401", revenueCode := some "R1", campus := none,
               brand := some "B", businessUnit := some "U",
               revenue := some 100, costs := [] }] }

/-- The ledger row that `load_data` derives from `rawD`. -/
def ledgerRowD : LedgerRow :=
  { periodKey := "202401", year := "2024", month := "01", quarter := "Q1",
    yearQuarter := "2024 Q1", revenueCode := "R1", campus := "N/A",
    brand := "B", businessUnit := "U", revenue := 100, totalCost := 0,
    operatingProfit := 100, sort_key := 202401, costs := [] }

/-- The DataFrame that `load_data` produces from `rawD`. -/
def dfD : DataFrame := ⟨rawD.cols ++ DERIVED_COLUMNS, [ledgerRowD]⟩

set_option maxRecDepth 2000 in
/-- C1 witness: `load_data` succeeds on the concrete degraded-mode frame
and the row-wise identities hold there. -/
theorem c1_witness :
    load_data rawD = some dfD ∧
    (ledgerRowD.operatingProfit = ledgerRowD.revenue - ledgerRowD.totalCost ∧
      (COST_COLUMNS.all (fun c => decide (c ∈ rawD.cols)) = true →
        ledgerRowD.totalCost = (COST_COLUMNS.map (fun c => (ledgerRowD.costs.lookup c).getD 0)).sum) ∧
      (COST_COLUMNS.all (fun c => decide (c ∈ rawD.cols)) = false →
        ledgerRowD.totalCost = 0 ∧ ledgerRowD.operatingProfit = ledgerRowD.revenue)) :=
  ⟨by with_unfolding_all rfl,
   c1_operating_profit_identity rawD dfD (by with_unfolding_all rfl) ledgerRowD
     (by simp [dfD])⟩

lemma lexLt_irrefl (l : List Char) : lexLt l l = false := by
  induction l with
  | nil => rfl
  | cons a as ih => simp [lexLt, lt_irrefl, ih]

lemma lexLt_asymm : ∀ (a b : List Char), lexLt a b = true → lexLt b a = false := by
  intro a
  induction a with
  | nil =>
    intro b h
    cases b with
    | nil => exact absurd h (by simp [lexLt])
    | cons y ys => rfl
  | cons x xs ih =>
    intro b h
    cases b with
    | nil => exact absurd h (by simp [lexLt])
    | cons y ys =>
      simp only [lexLt] at h ⊢
      by_cases hxy : x < y
      · simp [hxy, lt_asymm hxy]
      · by_cases hyx : y < x
        · rw [if_neg hxy, if_pos hyx] at h
          cases h
        · rw [if_neg hxy, if_neg hyx] at h
          rw [if_neg hyx, if_neg hxy]
          exact ih ys h

lemma lexLt_trans : ∀ (a b c : List Char),
    lexLt a b = true → lexLt b c = true → lexLt a c = true := by
  intro a
  induction a with
  | nil =>
    intro b c h1 h2
    cases b with
    | nil => exact absurd h1 (by simp [lexLt])
    | cons y ys =>
      cases c with
      | nil => exact absurd h2 (by simp [lexLt])
      | cons z zs => rfl
  | cons x xs ih =>
    intro b c h1 h2
    cases b with
    | nil => exact absurd h1 (by simp [lexLt])
    | cons y ys =>
      cases c with
      | nil => exact absurd h2 (by simp [lexLt])
      | cons z zs =>
        simp only [lexLt] at h1 h2 ⊢
        by_cases hxy : x < y
        · by_cases hyz : y < z
          · simp [lt_trans hxy hyz]
          · by_cases hzy : z < y
            · rw [if_neg hyz, if_pos hzy] at h2
              cases h2
            · have hyzeq : y = z := le_antisymm (le_of_not_lt hzy) (le_of_not_lt hyz)
              subst hyzeq
              simp [hxy]
        · by_cases hyx : y < x
          · rw [if_neg hxy, if_pos hyx] at h1
            cases h1
          · have hxyeq : x = y := le_antisymm (le_of_not_lt hyx) (le_of_not_lt hxy)
            subst hxyeq
            rw [if_neg hxy, if_neg hxy] at h1
            by_cases hyz : x < z
            · simp [hyz]
            · by_cases hzy : z < x
              · rw [if_neg hyz, if_pos hzy] at h2
                cases h2
              · rw [if_neg hyz, if_neg hzy] at h2 ⊢
                exact ih ys zs h1 h2

lemma lexLt_connex : ∀ (a b : List Char),
    lexLt a b = false → lexLt b a = false → a = b := by
  intro a
  induction a with
  | nil =>
    intro b h1 _
    cases b with
    | nil => rfl
    | cons y ys => exact absurd h1 (by simp [lexLt])
  | cons x xs ih =>
    intro b h1 h2
    cases b with
    | nil => exact absurd h2 (by simp [lexLt])
    | cons y ys =>
      simp only [lexLt] at h1 h2
      by_cases hxy : x < y
      · rw [if_pos hxy] at h1
        cases h1
      · by_cases hyx : y < x
        · rw [if_pos hyx] at h2
          cases h2
        · have hxyeq : x = y := le_antisymm (le_of_not_lt hyx) (le_of_not_lt hxy)
          subst hxyeq
          rw [if_neg hxy, if_neg hxy] at h1
          rw [if_neg hxy, if_neg hxy] at h2
          rw [ih ys h1 h2]

lemma strLe_refl (a : String) : strLe a a = true := by
  simp [strLe, strLt, lexLt_irrefl]

lemma strLe_of_strLt {a b : String} (h : strLt a b = true) : strLe a b = true := by
  simp only [strLe, strLt] at *
  rw [lexLt_asymm _ _ h]
  rfl

lemma strLe_trans {a b c : String} (h1 : strLe a b = true) (h2 : strLe b c = true) :
    strLe a c = true := by
  simp only [strLe, strLt, Bool.not_eq_true'] at h1 h2 ⊢
  by_contra hca
  rw [Bool.not_eq_false] at hca
  by_cases hab : lexLt a.data b.data = true
  · have := lexLt_trans _ _ _ hca hab
    rw [this] at h2
    cases h2
  · rw [Bool.not_eq_true] at hab
    have hEq : a.data = b.data := lexLt_connex _ _ hab h1
    rw [hEq] at hca
    rw [hca] at h2
    cases h2

/-- Python `max` over a list of strings (the built-in keeps the current
value on ties and replaces it when a later element is strictly
greater). -/
def pyMax : List String → String
  | [] => ""
  | h :: t => t.foldl (fun a b => if strLt a b then b else a) h

lemma strLe_step_left (a b : String) :
    strLe a (if strLt a b then b else a) = true := by
  by_cases h : strLt a b = true
  · rw [if_pos h]
    exact strLe_of_strLt h
  · rw [Bool.not_eq_true] at h
    rw [if_neg (by simp [h])]
    exact strLe_refl a

lemma strLe_step_right (a b : String) :
    strLe b (if strLt a b then b else a) = true := by
  by_cases h : strLt a b = true
  · rw [if_pos h]
    exact strLe_refl b
  · rw [Bool.not_eq_true] at h
    rw [if_neg (by simp [h])]
    simp [strLe, h]

lemma strLe_foldl_pyMax (t : List String) : ∀ a : String,
    strLe a (t.foldl (fun a b => if strLt a b then b else a) a) = true ∧
    ∀ x ∈ t, strLe x (t.foldl (fun a b => if strLt a b then b else a) a) = true := by
  induction t with
  | nil =>
    intro a
    exact ⟨strLe_refl a, by intro x hx; cases hx⟩
  | cons b t ih =>
    intro a
    simp only [List.foldl_cons]
    refine ⟨strLe_trans (strLe_step_left a b) (ih _).1, ?_⟩
    intro x hx
    simp only [List.mem_cons] at hx
    rcases hx with rfl | hx
    · exact strLe_trans (strLe_step_right a x) (ih _).1
    · exact (ih _).2 x hx

lemma strLe_pyMax {m : String} {l : List String} (h : m ∈ l) :
    strLe m (pyMax l) = true := by
  cases l with
  | nil => cases h
  | cons a t =>
    simp only [List.mem_cons] at h
    rcases h with rfl | h
    · exact (strLe_foldl_pyMax t m).1
    · exact (strLe_foldl_pyMax t a).2 m h

/-- The four filterable organizational dimensions. -/
inductive Dim where
  | revenueCode
  | campus
  | brand
  | businessUnit
deriving DecidableEq, Repr

/-- Value of a dimension column in a ledger row. -/
def LedgerRow.dimVal (r : LedgerRow) : Dim → String
  | .revenueCode => r.revenueCode
  | .campus => r.campus
  | .brand => r.brand
  | .businessUnit => r.businessUnit

/-- The dynamic dimension-filter loop of the source (`for filter_col,
filter_values in selected_filter_values.items(): if filter_values: ...`):
each filter with a non-empty selected set keeps only the rows whose
value is in the set; an empty selected set is skipped. -/
def applyDimFilters (rows : List LedgerRow) :
    List (Dim × List String) → List LedgerRow
  | [] => rows
  | p :: ps =>
    applyDimFilters
      (if p.2.isEmpty then rows
       else rows.filter (fun r => decide (r.dimVal p.1 ∈ p.2))) ps

/-- The exact-selection filter building `df_target` (source lines
925-935): with a non-empty year selection and month selection, keep the
rows whose year and month are selected, then apply the dimension
filters; with an empty year or month selection the result is the empty
frame. -/
def selectExact (df : DataFrame) (years months : List String)
    (fs : List (Dim × List String)) : List LedgerRow :=
  if years.isEmpty || months.isEmpty then []
  else
    applyDimFilters
      (df.rows.filter (fun r => decide (r.year ∈ years) && decide (r.month ∈ months))) fs

/-- Model of `sorted(df['월'].unique().tolist())` restricted to membership: the
distinct months present in the frame. -/
def allMonths (df : DataFrame) : List String := (df.rows.map (·.month)).dedup

/-- The range-to-date filter building `df_trend_base` (source lines
941-954): months from the start of the year up to the largest selected
month (the comparison `m <= max(selected_months)` is Python string
comparison on zero-padded months, restricted to the months actually
present in the frame), then the same dimension filters. -/
def selectRangeToDate (df : DataFrame) (years months : List String)
    (fs : List (Dim × List String)) : List LedgerRow :=
  if years.isEmpty || months.isEmpty then []
  else
    let maxM := pyMax months
    let inRange := (allMonths df).filter (fun m => strLe m maxM)
    applyDimFilters
      (df.rows.filter (fun r => decide (r.year ∈ years) && decide (r.month ∈ inRange))) fs

lemma mem_applyDimFilters :
    ∀ (fs : List (Dim × List String)) (rows : List LedgerRow) (r : LedgerRow),
      r ∈ applyDimFilters rows fs ↔
        r ∈ rows ∧ ∀ p ∈ fs, p.2 ≠ [] → r.dimVal p.1 ∈ p.2 := by
  intro fs
  induction fs with
  | nil =>
    intro rows r
    simp [applyDimFilters]
  | cons p ps ih =>
    intro rows r
    simp only [applyDimFilters]
    rw [ih]
    by_cases hp : p.2.isEmpty
    · have hpe : p.2 = [] := List.isEmpty_iff.mp hp
      simp [hp, hpe]
    · have hpe : p.2 ≠ [] := by
        intro hc
        rw [hc] at hp
        exact hp rfl
      simp only [if_neg hp, List.mem_filter, decide_eq_true_eq, List.mem_cons]
      constructor
      · rintro ⟨⟨hrow, hdim⟩, hrest⟩
        refine ⟨hrow, ?_⟩
        rintro q (rfl | hq)
        · intro _
          exact hdim
        · exact hrest q hq
      · rintro ⟨hrow, hall⟩
        exact ⟨⟨hrow, hall p (Or.inl rfl) hpe⟩, fun q hq => hall q (Or.inr hq)⟩

/-- C7.  The exact-selection filter includes a row of the frame iff its
year is selected, its month is selected, and for every dimension filter
with a non-empty selected set the row's value is in that set; an empty
year selection or an empty month selection yields the empty result, and
an empty selected set for a dimension imposes no constraint. -/
theorem c7_exact_selection_semantics :
    (∀ (df : DataFrame) (years months : List String)
        (fs : List (Dim × List String)) (r : LedgerRow), r ∈ df.rows →
      (r ∈ selectExact df years months fs ↔
        r.year ∈ years ∧ r.month ∈ months ∧
          ∀ p ∈ fs, p.2 ≠ [] → r.dimVal p.1 ∈ p.2)) ∧
    (∀ (df : DataFrame) (months : List String) (fs : List (Dim × List String)),
      selectExact df [] months fs = []) ∧
    (∀ (df : DataFrame) (years : List String) (fs : List (Dim × List String)),
      selectExact df years [] fs = []) := by
  refine ⟨?_, ?_, ?_⟩
  · intro df years months fs r hr
    cases years with
    | nil => simp [selectExact]
    | cons y ys =>
      cases months with
      | nil => simp [selectExact]
      | cons m ms =>
        rw [selectExact, if_neg (by simp)]
        rw [mem_applyDimFilters]
        simp only [List.mem_filter, Bool.and_eq_true, decide_eq_true_eq]
        constructor
        · rintro ⟨⟨_, hy, hm⟩, hdims⟩
          exact ⟨hy, hm, hdims⟩
        · rintro ⟨hy, hm, hdims⟩
          exact ⟨⟨hr, hy, hm⟩, hdims⟩
  · intro df months fs
    simp [selectExact]
  · intro df years fs
    simp [selectExact]

/-- A one-row concrete frame used by the filter witnesses. -/
def dfW : DataFrame := ⟨["년월"], [ledgerRowD]⟩

/-- C7 witness: the characterization instantiated on a concrete frame,
with the membership hypothesis discharged at the single row. -/
theorem c7_witness :
    ledgerRowD ∈ selectExact dfW ["2024"] ["01"] [(Dim.campus, [])] ↔
      ledgerRowD.year ∈ ["2024"] ∧ ledgerRowD.month ∈ ["01"] ∧
        ∀ p ∈ [(Dim.campus, ([] : List String))], p.2 ≠ [] →
          ledgerRowD.dimVal p.1 ∈ p.2 :=
  c7_exact_selection_semantics.1 dfW ["2024"] ["01"] [(Dim.campus, [])] ledgerRowD
    (by simp [dfW])

/-- C6.  For a non-empty month selection, every row selected by the
exact-selection filter is also selected by the range-to-date filter
with the same years, months and dimension filters. -/
theorem c6_exact_subset_of_range_to_date (df : DataFrame)
    (years months : List String) (fs : List (Dim × List String))
    (hM : months ≠ []) (r : LedgerRow)
    (hr : r ∈ selectExact df years months fs) :
    r ∈ selectRangeToDate df years months fs := by
  rcases years with _ | ⟨y, ys⟩
  · simp [selectExact] at hr
  · rcases months with _ | ⟨m, ms⟩
    · exact absurd rfl hM
    · rw [selectExact, if_neg (by simp)] at hr
      rw [mem_applyDimFilters] at hr
      obtain ⟨hfil, hdims⟩ := hr
      rw [List.mem_filter] at hfil
      obtain ⟨hrow, hcond⟩ := hfil
      simp only [Bool.and_eq_true, decide_eq_true_eq] at hcond
      rw [selectRangeToDate, if_neg (by simp)]
      rw [mem_applyDimFilters]
      refine ⟨?_, hdims⟩
      rw [List.mem_filter]
      refine ⟨hrow, ?_⟩
      simp only [Bool.and_eq_true, decide_eq_true_eq]
      refine ⟨hcond.1, ?_⟩
      rw [List.mem_filter]
      refine ⟨?_, strLe_pyMax hcond.2⟩
      rw [allMonths, List.mem_dedup]
      exact List.mem_map_of_mem (·.month) hrow

set_option maxRecDepth 2000 in
/-- C6 witness: a concrete exact selection contained in the concrete
range-to-date selection. -/
theorem c6_witness :
    (["01"] : List String) ≠ [] ∧
    ledgerRowD ∈ selectExact dfW ["2024"] ["01"] [] ∧
    ledgerRowD ∈ selectRangeToDate dfW ["2024"] ["01"] [] :=
  ⟨by simp,
   by
     rw [show selectExact dfW ["2024"] ["01"] [] = [ledgerRowD] from by
       with_unfolding_all rfl]
     exact List.mem_singleton.mpr rfl,
   c6_exact_subset_of_range_to_date dfW ["2024"] ["01"] [] (by simp) ledgerRowD
     (by
       rw [show selectExact dfW ["2024"] ["01"] [] = [ledgerRowD] from by
         with_unfolding_all rfl]
       exact List.mem_singleton.mpr rfl)⟩

/-- The percentage-delta policy as the spec states it (§4.4), written
from the spec's words for comparison against the source's computations:
nonzero comparison gives `(delta / comparison) × 100`; zero comparison
gives 0 when the target is also 0 and `+infinity` otherwise. -/
def specPercentagePolicy (target comparison : ℚ) : Pct :=
  if comparison ≠ 0 then Pct.val ((target - comparison) / comparison * 100)
  else if target = 0 then Pct.val 0
  else Pct.inf

/-- The conditional-rate pattern of `generate_ai_insights`
(`(diff / comp * 100) if comp != 0 else 0`), used there for the
revenue, profit and category change rates. -/
def condRate (diff comp : ℚ) : ℚ := if comp ≠ 0 then diff / comp * 100 else 0

/-- Boolean comparison on percentages: `np.inf` compares greater than
every finite value. -/
def Pct.ble : Pct → Pct → Bool
  | _, .inf => true
  | .inf, .val _ => false
  | .val a, .val b => decide (a ≤ b)

/-- Comparison `p > q` of a percentage against a finite threshold (`np.inf > q`
is true). -/
def Pct.bgt (p : Pct) (q : ℚ) : Bool :=
  match p with
  | .inf => true
  | .val v => decide (q < v)

/-- Insert into a sorted list, keeping earlier elements first on ties
(stable). -/
def insertSorted {α : Type} (le : α → α → Bool) (x : α) : List α → List α
  | [] => [x]
  | y :: ys => if le x y then x :: y :: ys else y :: insertSorted le x ys

/-- Stable insertion sort, the deterministic refinement used for the
source's `sort_values` / `nlargest` calls. -/
def isort {α : Type} (le : α → α → Bool) : List α → List α
  | [] => []
  | x :: xs => insertSorted le x (isort le xs)

/-- Model of `df[col].sum()` for a cost column: sum of the (coerced) cells. -/
def colSum (df : DataFrame) (c : String) : ℚ :=
  (df.rows.map (fun r => (r.costs.lookup c).getD 0)).sum

/-- One row of the cost-item analysis table: `비용항목` (item),
`주요기간` (target-period sum), `비교기간` (comparison-period sum),
`증감액` (diff) and `증감률` (diff rate). -/
structure CostRow where
  item : String
  targetPeriod : ℚ
  compPeriod : ℚ
  diff : ℚ
  diffRate : Pct
deriving DecidableEq, Repr

/-- Model of `analyze_cost_breakdown` (source lines 398-442): per cost
column, target and comparison sums (0 for a column absent from the
frame, and 0 throughout when the comparison frame is `None` or empty),
the difference, and the rate with the explicit zero/infinity
zero-division policy. -/
def analyze_cost_breakdown (df_target : DataFrame) (df_comparison : Option DataFrame)
    (cost_columns : List String) : List CostRow :=
  cost_columns.map (fun col =>
    let target_val := if col ∈ df_target.cols then colSum df_target col else 0
    let comp_val :=
      match df_comparison with
      | some d =>
        if d.rows.isEmpty then 0
        else if col ∈ d.cols then colSum d col else 0
      | none => 0
    let diff := target_val - comp_val
    let diff_rate : Pct :=
      if comp_val ≠ 0 then Pct.val (diff / comp_val * 100)
      else if target_val = 0 then Pct.val 0 else Pct.inf
    { item := col, targetPeriod := target_val, compPeriod := comp_val,
      diff := diff, diffRate := diff_rate })

/-- Flag of an insight (`'type'` of the source's insight dicts). -/
inductive IType where
  | positive
  | negative
  | neutral
deriving DecidableEq, Repr

/-- Identity of an insight: which rule branch of `generate_ai_insights`
emitted it, with the numeric or categorical payload that the branch
interpolates into its text. -/
inductive ITag where
  | revenueGrowth (rate : ℚ)
  | revenueDecline (rate : ℚ)
  | revenueFlat (rate : ℚ)
  | profitImproved (rate : ℚ)
  | profitWorsened (rate : ℚ)
  | categoryIncrease (category : String)
  | categoryDecrease (category : String)
  | costItemSpike (item : String)
  | currentPeriodSummary
  | profitMargin (margin : ℚ)
deriving DecidableEq, Repr

/-- A generated insight: flag plus rule identity. -/
structure Insight where
  type : IType
  tag : ITag
deriving DecidableEq, Repr

/-- One category-change record of the insight generator's step 2. -/
structure CatChange where
  category : String
  target : ℚ
  comp : ℚ
  diff : ℚ
  rate : ℚ
deriving DecidableEq, Repr

/-- The per-category sums and changes computed by `generate_ai_insights`
(source lines 497-509); the rate uses the conditional-rate pattern
(`0` whenever the comparison sum is 0). -/
def category_changes (df_target df_comparison : DataFrame)
    (cost_categories : List (String × List String)) : List CatChange :=
  cost_categories.map (fun p =>
    let target_sum :=
      ((p.2.filter (fun c => decide (c ∈ df_target.cols))).map (colSum df_target)).sum
    let comp_sum :=
      ((p.2.filter (fun c => decide (c ∈ df_comparison.cols))).map (colSum df_comparison)).sum
    let diff := target_sum - comp_sum
    { category := p.1, target := target_sum, comp := comp_sum, diff := diff,
      rate := condRate diff comp_sum })

/-- The largest-increasing-category insight (head of the list sorted by
`diff` descending, emitted only when its diff is positive). -/
def catIncreaseInsight (sorted : List CatChange) : List Insight :=
  match sorted.head? with
  | some t => if 0 < t.diff then [⟨.negative, .categoryIncrease t.category⟩] else []
  | none => []

/-- The largest-decreasing-category insight (tail of the same sorted
list, emitted only when its diff is negative). -/
def catDecreaseInsight (sorted : List CatChange) : List Insight :=
  match sorted.getLast? with
  | some t => if t.diff < 0 then [⟨.positive, .categoryDecrease t.category⟩] else []
  | none => []

/-- Step 2 of `generate_ai_insights`: the category insights. -/
def categoryInsights (df_target df_comparison : DataFrame)
    (cost_categories : List (String × List String)) : List Insight :=
  let sorted := isort (fun a b => decide (b.diff ≤ a.diff))
    (category_changes df_target df_comparison cost_categories)
  catIncreaseInsight sorted ++ catDecreaseInsight sorted

/-- Step 3 of `generate_ai_insights` (source lines 532-545): among cost
items whose comparison sum exceeds 1,000,000, the top 3 by rate
(descending, `np.inf` first); each of those with rate above 20% emits a
spike insight. -/
def costItemInsights (df_target df_comparison : DataFrame)
    (cost_columns : List String) : List Insight :=
  let cost_analysis := analyze_cost_breakdown df_target (some df_comparison) cost_columns
  let significant := cost_analysis.filter (fun r => decide ((1000000 : ℚ) < r.compPeriod))
  if significant.isEmpty then []
  else
    let top3 := (isort (fun a b => Pct.ble b.diffRate a.diffRate) significant).take 3
    (top3.filter (fun r => r.diffRate.bgt 20)).map
      (fun r => ⟨.negative, .costItemSpike r.item⟩)

/-- The no-comparison branch of `generate_ai_insights` (source lines
547-563): one neutral summary insight, plus — only when the target's
summed total cost is positive — a profit-margin insight flagged
positive iff the margin exceeds 10%. -/
def noComparisonInsights (df_target : DataFrame)
    (total_revenue_target operating_profit_target : ℚ) : List Insight :=
  let base : List Insight := [⟨.neutral, .currentPeriodSummary⟩]
  let total_cost :=
    if "총비용" ∈ df_target.cols then (df_target.rows.map (·.totalCost)).sum else 0
  if 0 < total_cost then
    let profit_margin :=
      if total_revenue_target ≠ 0 then
        operating_profit_target / total_revenue_target * 100
      else 0
    base ++ [⟨if 10 < profit_margin then .positive else .negative,
              .profitMargin profit_margin⟩]
  else base

/-- Model of `generate_ai_insights` (source lines 446-565): with a
non-`None`, non-empty comparison frame, the revenue insight (thresholds
±5 with a neutral branch), the profit insight (thresholds ±10 with no
neutral branch), the category insights and the cost-item spike
insights, in that order; otherwise the no-comparison branch. -/
def generate_ai_insights (df_target : DataFrame) (df_comparison : Option DataFrame)
    (cost_columns : List String) (cost_categories : List (String × List String))
    (total_revenue_target total_revenue_comp
      operating_profit_target operating_profit_comp : ℚ) : List Insight :=
  match df_comparison with
  | some dfc =>
    if dfc.rows.isEmpty then
      noComparisonInsights df_target total_revenue_target operating_profit_target
    else
      let revenue_rate :=
        condRate (total_revenue_target - total_revenue_comp) total_revenue_comp
      let profit_rate :=
        condRate (operating_profit_target - operating_profit_comp) operating_profit_comp
      (if revenue_rate > 5 then [⟨.positive, .revenueGrowth revenue_rate⟩]
       else if revenue_rate < -5 then [⟨.negative, .revenueDecline revenue_rate⟩]
       else [⟨.neutral, .revenueFlat revenue_rate⟩]) ++
      (if profit_rate > 10 then [⟨.positive, .profitImproved profit_rate⟩]
       else if profit_rate < -10 then [⟨.negative, .profitWorsened profit_rate⟩]
       else []) ++
      categoryInsights df_target dfc cost_categories ++
      costItemInsights df_target dfc cost_columns
  | none => noComparisonInsights df_target total_revenue_target operating_profit_target

lemma mem_catIncreaseInsight {s : List CatChange} {i : Insight}
    (h : i ∈ catIncreaseInsight s) :
    ∃ n, i = ⟨.negative, .categoryIncrease n⟩ := by
  unfold catIncreaseInsight at h
  split at h
  · split at h
    · rw [List.mem_singleton] at h
      exact ⟨_, h⟩
    · cases h
  · cases h

lemma mem_catDecreaseInsight {s : List CatChange} {i : Insight}
    (h : i ∈ catDecreaseInsight s) :
    ∃ n, i = ⟨.positive, .categoryDecrease n⟩ := by
  unfold catDecreaseInsight at h
  split at h
  · split at h
    · rw [List.mem_singleton] at h
      exact ⟨_, h⟩
    · cases h
  · cases h

lemma mem_costItemInsights {dft dfc : DataFrame} {cc : List String} {i : Insight}
    (h : i ∈ costItemInsights dft dfc cc) :
    ∃ n, i = ⟨.negative, .costItemSpike n⟩ := by
  unfold costItemInsights at h
  by_cases he : (List.filter (fun r => decide ((1000000 : ℚ) < r.compPeriod))
      (analyze_cost_breakdown dft (some dfc) cc)).isEmpty
  · rw [if_pos he] at h
    cases h
  · rw [if_neg he] at h
    rw [List.mem_map] at h
    obtain ⟨r, _, hri⟩ := h
    exact ⟨r.item, hri.symm⟩

/-- C8.  With an active non-empty comparison and both the revenue change
rate and the operating-profit change rate equal to +7%, the generator
emits the positive revenue-growth insight first (revenue threshold +5)
and emits no profit-direction insight at all (profit thresholds ±10
with no neutral branch): the two rule sets are thresholded
independently. -/
theorem c8_seven_percent_asymmetry (df_target dfc : DataFrame)
    (cost_columns : List String) (cost_categories : List (String × List String))
    (trt trc opt opc : ℚ) (hne : dfc.rows ≠ [])
    (hrc : trc ≠ 0) (hr7 : (trt - trc) / trc * 100 = 7)
    (hoc : opc ≠ 0) (hp7 : (opt - opc) / opc * 100 = 7) :
    (generate_ai_insights df_target (some dfc) cost_columns cost_categories
        trt trc opt opc).head? = some ⟨.positive, .revenueGrowth 7⟩ ∧
    ∀ i ∈ generate_ai_insights df_target (some dfc) cost_columns cost_categories
        trt trc opt opc,
      ∀ q : ℚ, i.tag ≠ .profitImproved q ∧ i.tag ≠ .profitWorsened q := by
  have hemp : dfc.rows.isEmpty = false := by
    cases hrows : dfc.rows with
    | nil => exact absurd hrows hne
    | cons a l => rfl
  have hrr : condRate (trt - trc) trc = 7 := by
    rw [condRate, if_pos hrc, hr7]
  have hpr : condRate (opt - opc) opc = 7 := by
    rw [condRate, if_pos hoc, hp7]
  have hG : generate_ai_insights df_target (some dfc) cost_columns cost_categories
      trt trc opt opc =
      ⟨.positive, .revenueGrowth 7⟩ ::
        (categoryInsights df_target dfc cost_categories ++
          costItemInsights df_target dfc cost_columns) := by
    rw [generate_ai_insights]
    rw [hemp]
    simp only [Bool.false_eq_true, if_false, hrr, hpr]
    rw [if_pos (by norm_num : (7:ℚ) > 5)]
    rw [if_neg (by norm_num : ¬ (7:ℚ) > 10)]
    rw [if_neg (by norm_num : ¬ (7:ℚ) < -10)]
    simp
  constructor
  · rw [hG]
    rfl
  · intro i hi q
    rw [hG] at hi
    rw [List.mem_cons] at hi
    rcases hi with rfl | hi
    · exact ⟨by simp, by simp⟩
    · rw [List.mem_append] at hi
      rcases hi with hi | hi
      · rw [categoryInsights, List.mem_append] at hi
        rcases hi with hi | hi
        · obtain ⟨n, rfl⟩ := mem_catIncreaseInsight hi
          exact ⟨by simp, by simp⟩
        · obtain ⟨n, rfl⟩ := mem_catDecreaseInsight hi
          exact ⟨by simp, by simp⟩
      · obtain ⟨n, rfl⟩ := mem_costItemInsights hi
        exact ⟨by simp, by simp⟩

/-- C8 witness: concrete frames and totals with both rates at exactly
+7%. -/
theorem c8_witness :
    (dfW.rows ≠ [] ∧ (100:ℚ) ≠ 0 ∧ ((107:ℚ) - 100) / 100 * 100 = 7) ∧
    (generate_ai_insights dfW (some dfW) [] [] 107 100 107 100).head? =
      some ⟨.positive, .revenueGrowth 7⟩ :=
  ⟨⟨by simp [dfW], by norm_num, by norm_num⟩,
   (c8_seven_percent_asymmetry dfW dfW [] [] 107 100 107 100
      (by simp [dfW]) (by norm_num) (by norm_num) (by norm_num) (by norm_num)).1⟩

/-- C9 (amended).  With a `None` or empty comparison frame the generator
emits the neutral summary insight first and exactly one neutral
insight in total; when the target's summed total cost is positive it
additionally emits exactly one profit-margin insight with margin
`operatingProfit / revenue × 100` (0 when revenue is 0), flagged
positive iff the margin exceeds 10%; when the summed total cost is not
positive, the margin insight is not emitted and the output is the
summary insight alone. -/
theorem c9_no_comparison_branch (df_target : DataFrame)
    (df_comparison : Option DataFrame) (cost_columns : List String)
    (cost_categories : List (String × List String)) (trt trc opt opc : ℚ)
    (h : df_comparison = none ∨ ∃ d, df_comparison = some d ∧ d.rows = []) :
    (generate_ai_insights df_target df_comparison cost_columns cost_categories
        trt trc opt opc).head? = some ⟨.neutral, .currentPeriodSummary⟩ ∧
    ((generate_ai_insights df_target df_comparison cost_columns cost_categories
        trt trc opt opc).filter (fun i => decide (i.type = .neutral))).length = 1 ∧
    (0 < (if "총비용" ∈ df_target.cols then (df_target.rows.map (·.totalCost)).sum else 0) →
      generate_ai_insights df_target df_comparison cost_columns cost_categories
          trt trc opt opc =
        [⟨.neutral, .currentPeriodSummary⟩,
         ⟨if 10 < (if trt ≠ 0 then opt / trt * 100 else 0) then .positive else .negative,
          .profitMargin (if trt ≠ 0 then opt / trt * 100 else 0)⟩]) ∧
    (¬ 0 < (if "총비용" ∈ df_target.cols then (df_target.rows.map (·.totalCost)).sum else 0) →
      generate_ai_insights df_target df_comparison cost_columns cost_categories
          trt trc opt opc = [⟨.neutral, .currentPeriodSummary⟩]) := by
  have hgen : generate_ai_insights df_target df_comparison cost_columns cost_categories
      trt trc opt opc = noComparisonInsights df_target trt opt := by
    rcases h with rfl | ⟨d, rfl, hd⟩
    · rfl
    · rw [generate_ai_insights]
      rw [show d.rows.isEmpty = true from by rw [hd]; rfl]
      rfl
  rw [hgen]
  simp only [noComparisonInsights]
  by_cases htc : 0 < (if "총비용" ∈ df_target.cols then (df_target.rows.map (·.totalCost)).sum else 0)
  · rw [if_pos htc]
    refine ⟨rfl, ?_, fun _ => rfl, fun hn => absurd htc hn⟩
    by_cases hm : 10 < (if trt ≠ 0 then opt / trt * 100 else 0)
    · rw [if_pos hm]
      rfl
    · rw [if_neg hm]
      rfl
  · rw [if_neg htc]
    exact ⟨rfl, rfl, fun hp => absurd hp htc, fun _ => rfl⟩

/-- A post-load frame whose target rows carry a zero total cost. -/
def dfZeroCost : DataFrame := ⟨["총비용"], [ledgerRowD]⟩

/-- C9 counterexample: with no comparison frame and a target whose
summed total cost is 0, the generator emits only the neutral summary —
no profit-margin insight, contradicting the claim that one is always
emitted. -/
theorem c9_counterexample :
    generate_ai_insights dfZeroCost none [] [] 100 0 100 0 =
      [⟨.neutral, .currentPeriodSummary⟩] := by
  with_unfolding_all rfl

/-- A post-load frame with a positive total cost, for the C9 witness. -/
def dfPosCost : DataFrame := ⟨["총비용"], [{ ledgerRowD with totalCost := 60, operatingProfit := 40 }]⟩

/-- C9 witness: the amended no-comparison behaviour at a concrete frame
with positive total cost (margin 40%, flagged positive). -/
theorem c9_witness :
    ((none : Option DataFrame) = none ∨
      ∃ d, (none : Option DataFrame) = some d ∧ d.rows = []) ∧
    (generate_ai_insights dfPosCost none [] [] 100 0 40 0).head? =
      some ⟨.neutral, .currentPeriodSummary⟩ :=
  ⟨Or.inl rfl,
   (c9_no_comparison_branch dfPosCost none [] [] 100 0 40 0 (Or.inl rfl)).1⟩

/-- C2 counterexample: at a concrete input whose comparison revenue is 0
and target revenue is 5, the insight generator's revenue rate is 0 (it
emits the neutral `revenueFlat 0` insight), while the spec's policy
requires `+infinity` for a zero comparison with nonzero target. -/
theorem c2_counterexample :
    (generate_ai_insights dfW (some dfW) [] [] 5 0 5 0).head? =
      some ⟨.neutral, .revenueFlat 0⟩ ∧
    specPercentagePolicy 5 0 = Pct.inf ∧
    Pct.val 0 ≠ Pct.inf := by
  refine ⟨?_, ?_, ?_⟩
  · with_unfolding_all rfl
  · with_unfolding_all rfl
  · intro h
    cases h

lemma mem_insertSorted {α : Type} (le : α → α → Bool) (x a : α) :
    ∀ l, a ∈ insertSorted le x l ↔ a = x ∨ a ∈ l := by
  intro l
  induction l with
  | nil => simp [insertSorted]
  | cons y ys ih =>
    simp only [insertSorted]
    cases h : le x y with
    | true =>
      simp only [if_pos rfl]
      simp [List.mem_cons]
    | false =>
      simp only [Bool.false_eq_true, if_false]
      simp only [List.mem_cons, ih]
      tauto

lemma mem_isort {α : Type} (le : α → α → Bool) (a : α) :
    ∀ l, a ∈ isort le l ↔ a ∈ l := by
  intro l
  induction l with
  | nil => simp [isort]
  | cons x xs ih =>
    simp only [isort, mem_insertSorted, List.mem_cons, ih]

/-- The time bucket of `aggregate_profit_trend`: `'년월'` (monthly) or
`'년분기'` (quarterly). -/
inductive TimeCol where
  | byMonth
  | byQuarter
deriving DecidableEq, Repr

/-- One row of the aggregated trend table: `display_label`,
`영업이익`, `매출액`, and the `기간` period label. -/
structure TrendRow where
  display_label : String
  operatingProfit : ℚ
  revenue : ℚ
  period : String
deriving DecidableEq, Repr

/-- Minimum of a list of integers (`'min'` aggregation); 0 on the empty
list, which never occurs for a non-empty group. -/
def listMinInt : List ℤ → ℤ
  | [] => 0
  | h :: t => t.foldl min h

/-- The quarterly `time_label` recomputed by `aggregate_profit_trend`
(source line 374): `년 + ' ' + 분기`. -/
def quarterLabel (r : LedgerRow) : String := strCat (strCat r.year " ") r.quarter

/-- Distinct quarterly labels of the input. -/
def quarterKeys (rows : List LedgerRow) : List String :=
  (rows.map quarterLabel).dedup

/-- Minimum `sort_key` within one quarterly group. -/
def quarterMin (rows : List LedgerRow) (k : String) : ℤ :=
  listMinInt ((rows.filter (fun r => decide (quarterLabel r = k))).map (·.sort_key))

/-- Quarterly group keys sorted chronologically by each group's minimum
`sort_key` (the source's `sort_values(sort_col)` after the `'min'`
aggregation). -/
def quarterGroups (rows : List LedgerRow) : List String :=
  isort (fun a b => decide (quarterMin rows a ≤ quarterMin rows b)) (quarterKeys rows)

/-- The aggregated row of one quarterly group: the label itself is the
display label. -/
def quarterRow (rows : List LedgerRow) (plabel : String) (k : String) : TrendRow :=
  let grp := rows.filter (fun r => decide (quarterLabel r = k))
  { display_label := k,
    operatingProfit := (grp.map (·.operatingProfit)).sum,
    revenue := (grp.map (·.revenue)).sum,
    period := plabel }

/-- Monthly group keys: the distinct `(년월, sort_key)` pairs sorted by
`sort_key`. -/
def monthGroups (rows : List LedgerRow) : List (String × ℤ) :=
  isort (fun a b => decide (a.2 ≤ b.2))
    ((rows.map (fun r => (r.periodKey, r.sort_key))).dedup)

/-- The aggregated row of one monthly group: the display label is the
month slice of the period key with leading zeros stripped
(`df_agg[time_col].str[4:6].str.lstrip('0')`). -/
def monthRow (rows : List LedgerRow) (plabel : String) (k : String × ℤ) : TrendRow :=
  let grp := rows.filter (fun r => decide (r.periodKey = k.1 ∧ r.sort_key = k.2))
  { display_label := lstripZeros (strTake (strDrop k.1 4) 2),
    operatingProfit := (grp.map (·.operatingProfit)).sum,
    revenue := (grp.map (·.revenue)).sum,
    period := plabel }

/-- The running-sum transformation of the cumulative mode
(`df_agg['영업이익'].cumsum()` and `df_agg['매출액'].cumsum()`), with
explicit accumulators. -/
def cumTrend (p v : ℚ) : List TrendRow → List TrendRow
  | [] => []
  | x :: xs =>
    { x with operatingProfit := p + x.operatingProfit, revenue := v + x.revenue } ::
      cumTrend (p + x.operatingProfit) (v + x.revenue) xs

/-- The grouped, chronologically sorted, labelled trend table before the
optional cumulative transformation. -/
def trendBase (rows : List LedgerRow) (time_col : TimeCol) (period_label : String) :
    List TrendRow :=
  match time_col with
  | .byQuarter => (quarterGroups rows).map (quarterRow rows period_label)
  | .byMonth => (monthGroups rows).map (monthRow rows period_label)

/-- Model of `aggregate_profit_trend` (source lines 369-394): `None` on an
empty input; otherwise group by the time bucket, sort chronologically,
attach the display label and the `기간` label, and in cumulative mode
replace both metrics by their running sums. -/
def aggregate_profit_trend (rows : List LedgerRow) (time_col : TimeCol)
    (is_cumulative : Bool) (period_label : String) : Option (List TrendRow) :=
  if rows.isEmpty then none
  else
    some (if is_cumulative then cumTrend 0 0 (trendBase rows time_col period_label)
      else trendBase rows time_col period_label)

lemma cumTrend_label : ∀ (l : List TrendRow) (p v : ℚ),
    (cumTrend p v l).map (·.display_label) = l.map (·.display_label) := by
  intro l
  induction l with
  | nil => intro p v; rfl
  | cons x xs ih =>
    intro p v
    simp only [cumTrend, List.map_cons, ih]

lemma cumTrend_length : ∀ (l : List TrendRow) (p v : ℚ),
    (cumTrend p v l).length = l.length := by
  intro l
  induction l with
  | nil => intro p v; rfl
  | cons x xs ih =>
    intro p v
    simp only [cumTrend, List.length_cons, ih]

lemma cumTrend_profit : ∀ (l : List TrendRow) (p v : ℚ) (i : ℕ)
    (h : i < (cumTrend p v l).length),
    ((cumTrend p v l).get ⟨i, h⟩).operatingProfit =
      p + ((l.take (i + 1)).map (·.operatingProfit)).sum := by
  intro l
  induction l with
  | nil =>
    intro p v i h
    simp [cumTrend] at h
  | cons x xs ih =>
    intro p v i h
    cases i with
    | zero =>
      simp [cumTrend]
    | succ j =>
      simp only [cumTrend, List.get_cons_succ]
      rw [ih]
      simp only [List.take_succ_cons, List.map_cons, List.sum_cons]
      ring

lemma cumTrend_revenue : ∀ (l : List TrendRow) (p v : ℚ) (i : ℕ)
    (h : i < (cumTrend p v l).length),
    ((cumTrend p v l).get ⟨i, h⟩).revenue =
      v + ((l.take (i + 1)).map (·.revenue)).sum := by
  intro l
  induction l with
  | nil =>
    intro p v i h
    simp [cumTrend] at h
  | cons x xs ih =>
    intro p v i h
    cases i with
    | zero =>
      simp [cumTrend]
    | succ j =>
      simp only [cumTrend, List.get_cons_succ]
      rw [ih]
      simp only [List.take_succ_cons, List.map_cons, List.sum_cons]
      ring

lemma aggregate_cumulative_eq {rows : List LedgerRow} {tc : TimeCol}
    {plabel : String} {base ct : List TrendRow}
    (hb : aggregate_profit_trend rows tc false plabel = some base)
    (hc : aggregate_profit_trend rows tc true plabel = some ct) :
    ct = cumTrend 0 0 base := by
  rw [aggregate_profit_trend] at hb hc
  cases he : rows.isEmpty with
  | true =>
    rw [he] at hb
    cases hb
  | false =>
    rw [he] at hb hc
    simp only [Bool.false_eq_true, if_false, eq_self_iff_true, if_true,
      Option.some.injEq] at hb hc
    rw [← hc, ← hb]

/-- C5.  For a non-empty input and either time bucket, the cumulative
trend table has the same display labels and the same row count as the
non-cumulative one, and its i-th operating-profit and revenue values
are the sums of the first i non-cumulative values in chronological
order (prefix-sum law). -/
theorem c5_cumulative_is_prefix_sum (rows : List LedgerRow) (tc : TimeCol)
    (plabel : String) (base ct : List TrendRow)
    (hb : aggregate_profit_trend rows tc false plabel = some base)
    (hc : aggregate_profit_trend rows tc true plabel = some ct) :
    ct.map (·.display_label) = base.map (·.display_label) ∧
    ct.length = base.length ∧
    ∀ i : ℕ, ∀ h : i < ct.length,
      (ct.get ⟨i, h⟩).operatingProfit =
        ((base.take (i + 1)).map (·.operatingProfit)).sum ∧
      (ct.get ⟨i, h⟩).revenue = ((base.take (i + 1)).map (·.revenue)).sum := by
  have hct : ct = cumTrend 0 0 base := aggregate_cumulative_eq hb hc
  subst hct
  refine ⟨cumTrend_label base 0 0, cumTrend_length base 0 0, ?_⟩
  intro i h
  rw [cumTrend_profit base 0 0 i h, cumTrend_revenue base 0 0 i h]
  constructor <;> rw [zero_add]

/-- First sample ledger row for the trend witness (2024-01). -/
def trendRow1 : LedgerRow :=
  { ledgerRowD with revenue := 1000000, operatingProfit := 400000, totalCost := 600000 }

/-- Second sample ledger row for the trend witness (2024-02). -/
def trendRow2 : LedgerRow :=
  { ledgerRowD with periodKey := "202402", month := "02", sort_key := 202402,
                    revenue := 1200000, operatingProfit := 500000, totalCost := 700000 }

/-- Non-cumulative monthly trend of the two sample rows. -/
def trendBaseW : List TrendRow :=
  [{ display_label := "1", operatingProfit := 400000, revenue := 1000000, period := "L" },
   { display_label := "2", operatingProfit := 500000, revenue := 1200000, period := "L" }]

/-- Cumulative monthly trend of the two sample rows. -/
def trendCumW : List TrendRow :=
  [{ display_label := "1", operatingProfit := 400000, revenue := 1000000, period := "L" },
   { display_label := "2", operatingProfit := 900000, revenue := 2200000, period := "L" }]

set_option maxRecDepth 2000 in
/-- C5 witness: the monthly aggregation of the two concrete rows, in
both modes, with the label conclusion instantiated. -/
theorem c5_witness :
    aggregate_profit_trend [trendRow1, trendRow2] .byMonth false "L" = some trendBaseW ∧
    aggregate_profit_trend [trendRow1, trendRow2] .byMonth true "L" = some trendCumW ∧
    trendCumW.map (·.display_label) = trendBaseW.map (·.display_label) :=
  ⟨by with_unfolding_all rfl,
   by with_unfolding_all rfl,
   (c5_cumulative_is_prefix_sum [trendRow1, trendRow2] .byMonth "L" trendBaseW trendCumW
      (by with_unfolding_all rfl) (by with_unfolding_all rfl)).1⟩

/-- One row of the merged trend table (`df_trend_merged`): target
metrics, comparison metrics, absolute deltas and percentage deltas. -/
structure MergedTrendRow where
  display_label : String
  operatingProfit : ℚ
  revenue : ℚ
  compOperatingProfit : ℚ
  compRevenue : ℚ
  profitDiff : ℚ
  revenueDiff : ℚ
  profitDiffRate : Pct
  revenueDiffRate : Pct
deriving DecidableEq, Repr

/-- Build one merged trend row from target and comparison metrics
(source lines 1441-1445): deltas are target minus comparison, and each
rate follows the `np.where` zero/infinity policy. -/
def mergedTrendRow (lbl : String) (tp tv cp cv : ℚ) : MergedTrendRow :=
  { display_label := lbl, operatingProfit := tp, revenue := tv,
    compOperatingProfit := cp, compRevenue := cv,
    profitDiff := tp - cp, revenueDiff := tv - cv,
    profitDiffRate :=
      if cp = 0 then (if tp = 0 then Pct.val 0 else Pct.inf)
      else Pct.val ((tp - cp) / cp * 100),
    revenueDiffRate :=
      if cv = 0 then (if tv = 0 then Pct.val 0 else Pct.inf)
      else Pct.val ((tv - cv) / cv * 100) }

/-- The outer merge of the target and comparison trend tables on
`display_label` with `fillna(0)` (source lines 1434-1445): matched
labels combine, target-only labels get comparison metrics 0, and
comparison-only labels get target metrics 0. -/
def merge_trend (t c : List TrendRow) : List MergedTrendRow :=
  t.map (fun tr =>
    match c.find? (fun cr => decide (cr.display_label = tr.display_label)) with
    | some cr =>
      mergedTrendRow tr.display_label tr.operatingProfit tr.revenue
        cr.operatingProfit cr.revenue
    | none => mergedTrendRow tr.display_label tr.operatingProfit tr.revenue 0 0) ++
  (c.filter (fun cr =>
      !(t.any (fun tr => decide (tr.display_label = cr.display_label))))).map
    (fun cr => mergedTrendRow cr.display_label 0 0 cr.operatingProfit cr.revenue)

lemma strCat_label_inj {y1 y2 q1 q2 : String}
    (hlen : y1.data.length = y2.data.length)
    (h : strCat (strCat y1 " ") q1 = strCat (strCat y2 " ") q2) : y1 = y2 := by
  have hd : (y1.data ++ [' ']) ++ q1.data = (y2.data ++ [' ']) ++ q2.data := by
    have := congrArg String.data h
    simpa [strCat] using this
  have hlen2 : (y1.data ++ [' ']).length = (y2.data ++ [' ']).length := by
    simp [hlen]
  have := (List.append_inj hd hlen2).1
  have hy : y1.data = y2.data := (List.append_inj this hlen).1
  cases y1
  cases y2
  exact congrArg String.mk hy

lemma trend_label_from_agg {rows : List LedgerRow} {cum : Bool} {plabel : String}
    {t : List TrendRow}
    (ha : aggregate_profit_trend rows .byQuarter cum plabel = some t) :
    ∀ tr ∈ t, ∃ r ∈ rows, tr.display_label = quarterLabel r := by
  intro tr htr
  rw [aggregate_profit_trend] at ha
  cases he : rows.isEmpty with
  | true => rw [he] at ha; cases ha
  | false =>
    rw [he] at ha
    simp only [Bool.false_eq_true, if_false, Option.some.injEq] at ha
    have hlbl : tr.display_label ∈
        (trendBase rows .byQuarter plabel).map (·.display_label) := by
      cases hcum : cum with
      | true =>
        rw [hcum] at ha
        simp only [if_true] at ha
        have hmem : tr.display_label ∈ t.map (·.display_label) :=
          List.mem_map_of_mem _ htr
        rw [← ha, cumTrend_label] at hmem
        exact hmem
      | false =>
        rw [hcum] at ha
        simp only [Bool.false_eq_true, if_false] at ha
        rw [← ha] at htr
        exact List.mem_map_of_mem _ htr
    rw [show trendBase rows .byQuarter plabel =
        (quarterGroups rows).map (quarterRow rows plabel) from rfl] at hlbl
    rw [List.map_map] at hlbl
    rw [List.mem_map] at hlbl
    obtain ⟨k, hk, hkl⟩ := hlbl
    rw [quarterGroups, mem_isort, quarterKeys, List.mem_dedup, List.mem_map] at hk
    obtain ⟨r, hr, hrk⟩ := hk
    refine ⟨r, hr, ?_⟩
    rw [← hkl, ← hrk]
    rfl

/-- C10 (amended).  In quarterly mode the display label is
`'<year> <quarter>'` and the two trend tables are outer-joined on that
label; when the comparison year differs from every target year (all
years being 4-character strings), no label matches, so each merged row
has one period's metrics equal to 0, and every quarterly percentage
delta is 0, `+infinity`, or exactly −100% (the last on
comparison-only rows with a nonzero comparison value) — the quarterly
variance never pairs a quarter of one year with the same-numbered
quarter of another year. -/
theorem c10_quarterly_merge_no_match (tb cb : List LedgerRow) (Y : List String)
    (cy : String) (cum : Bool) (pl1 pl2 : String) (t c : List TrendRow)
    (hT : ∀ r ∈ tb, r.year ∈ Y) (hC : ∀ r ∈ cb, r.year = cy)
    (hY4 : ∀ y ∈ Y, y.data.length = 4) (hcy4 : cy.data.length = 4)
    (hcy : cy ∉ Y)
    (hat : aggregate_profit_trend tb .byQuarter cum pl1 = some t)
    (hac : aggregate_profit_trend cb .byQuarter cum pl2 = some c) :
    ∀ m ∈ merge_trend t c,
      ((m.compOperatingProfit = 0 ∧ m.compRevenue = 0) ∨
        (m.operatingProfit = 0 ∧ m.revenue = 0)) ∧
      (m.profitDiffRate = Pct.val 0 ∨ m.profitDiffRate = Pct.inf ∨
        m.profitDiffRate = Pct.val (-100)) ∧
      (m.revenueDiffRate = Pct.val 0 ∨ m.revenueDiffRate = Pct.inf ∨
        m.revenueDiffRate = Pct.val (-100)) := by
  have hlabels : ∀ tr ∈ t, ∀ cr ∈ c, cr.display_label ≠ tr.display_label := by
    intro tr htr cr hcr heq
    obtain ⟨r, hr, hrl⟩ := trend_label_from_agg hat tr htr
    obtain ⟨r', hr', hrl'⟩ := trend_label_from_agg hac cr hcr
    rw [hrl] at heq
    rw [hrl'] at heq
    have hyy : r'.year = r.year := by
      apply strCat_label_inj _ heq
      rw [hC r' hr', hcy4, hY4 r.year (hT r hr)]
    rw [hC r' hr'] at hyy
    rw [hyy] at hcy
    exact hcy (hT r hr)
  intro m hm
  rw [merge_trend, List.mem_append] at hm
  rcases hm with hm | hm
  · rw [List.mem_map] at hm
    obtain ⟨tr, htr, hmr⟩ := hm
    have hfind : c.find? (fun cr => decide (cr.display_label = tr.display_label)) = none := by
      rw [List.find?_eq_none]
      intro cr hcr
      simp only [decide_eq_true_eq]
      exact hlabels tr htr cr hcr
    rw [hfind] at hmr
    subst hmr
    refine ⟨Or.inl ⟨rfl, rfl⟩, ?_, ?_⟩
    · by_cases hp : tr.operatingProfit = 0
      · left
        simp [mergedTrendRow, hp]
      · right; left
        simp [mergedTrendRow, hp]
    · by_cases hv : tr.revenue = 0
      · left
        simp [mergedTrendRow, hv]
      · right; left
        simp [mergedTrendRow, hv]
  · rw [List.mem_map] at hm
    obtain ⟨cr, _, hmr⟩ := hm
    subst hmr
    refine ⟨Or.inr ⟨rfl, rfl⟩, ?_, ?_⟩
    · by_cases hp : cr.operatingProfit = 0
      · left
        simp [mergedTrendRow, hp]
      · right; right
        have : (0 - cr.operatingProfit) / cr.operatingProfit * 100 = -100 := by
          rw [zero_sub, neg_div, div_self hp]
          norm_num
        simp [mergedTrendRow, hp, this]
    · by_cases hv : cr.revenue = 0
      · left
        simp [mergedTrendRow, hv]
      · right; right
        have : (0 - cr.revenue) / cr.revenue * 100 = -100 := by
          rw [zero_sub, neg_div, div_self hv]
          norm_num
        simp [mergedTrendRow, hv, this]

/-- Comparison-year sample row (2023-01) for the quarterly merge
theorems. -/
def compRow2023 : LedgerRow :=
  { ledgerRowD with periodKey := "202301", year := "2023", yearQuarter := "2023 Q1",
                    sort_key := 202301, revenue := 50, operatingProfit := 50 }

/-- Target-year sample row (2024-01) for the quarterly merge
theorems. -/
def targetRow2024 : LedgerRow :=
  { ledgerRowD with revenue := 100, operatingProfit := 100 }

set_option maxRecDepth 2000 in
/-- C10 counterexample: with target year 2024 and comparison year 2023,
the merged quarterly table contains the comparison-only row
`2023 Q1` whose percentage deltas are −100%, which is neither 0 nor
`+infinity` as the claim states. -/
theorem c10_counterexample :
    merge_trend ((aggregate_profit_trend [targetRow2024] .byQuarter false "A").getD [])
        ((aggregate_profit_trend [compRow2023] .byQuarter false "B").getD []) =
      [mergedTrendRow "2024 Q1" 100 100 0 0, mergedTrendRow "2023 Q1" 0 0 50 50] ∧
    (mergedTrendRow "2023 Q1" 0 0 50 50).profitDiffRate = Pct.val (-100) ∧
    Pct.val (-100) ≠ Pct.val 0 ∧ Pct.val (-100) ≠ Pct.inf := by
  refine ⟨?_, ?_, ?_, ?_⟩
  · with_unfolding_all rfl
  · with_unfolding_all decide
  · with_unfolding_all decide
  · intro h
    cases h

set_option maxRecDepth 2000 in
/-- C10 witness: the amended statement applied at the concrete
2024-vs-2023 quarterly tables, instantiated at the comparison-only
merged row. -/
theorem c10_witness :
    (∀ r ∈ [targetRow2024], r.year ∈ ["2024"]) ∧
    (∀ r ∈ [compRow2023], r.year = "2023") ∧
    (("2023" : String) ∉ ["2024"]) ∧
    ((mergedTrendRow "2023 Q1" 0 0 50 50).profitDiffRate = Pct.val 0 ∨
      (mergedTrendRow "2023 Q1" 0 0 50 50).profitDiffRate = Pct.inf ∨
      (mergedTrendRow "2023 Q1" 0 0 50 50).profitDiffRate = Pct.val (-100)) :=
  ⟨by with_unfolding_all decide,
   by with_unfolding_all decide,
   by with_unfolding_all decide,
   (c10_quarterly_merge_no_match [targetRow2024] [compRow2023] ["2024"] "2023"
      false "A" "B"
      [{ display_label := "2024 Q1", operatingProfit := 100, revenue := 100, period := "A" }]
      [{ display_label := "2023 Q1", operatingProfit := 50, revenue := 50, period := "B" }]
      (by with_unfolding_all decide) (by with_unfolding_all decide)
      (by with_unfolding_all decide) (by with_unfolding_all decide)
      (by with_unfolding_all decide)
      (by with_unfolding_all rfl) (by with_unfolding_all rfl)
      (mergedTrendRow "2023 Q1" 0 0 50 50)
      (by with_unfolding_all decide)).2.1⟩

/-- One row of a grouped breakdown table (`current_df.groupby(breakdown_cols)
[['매출액', '영업이익']].sum()`): the tuple of dimension values and the two
summed metrics. -/
structure AggRow where
  key : List String
  revenue : ℚ
  operatingProfit : ℚ
deriving DecidableEq, Repr

/-- The tuple of dimension values of a row for the chosen breakdown
columns. -/
def breakdownKey (bcols : List Dim) (r : LedgerRow) : List String :=
  bcols.map (r.dimVal ·)

/-- Group-by-sum over the breakdown columns (group order is not used by
any downstream computation). -/
def breakdown_group (rows : List LedgerRow) (bcols : List Dim) : List AggRow :=
  ((rows.map (breakdownKey bcols)).dedup).map (fun k =>
    let grp := rows.filter (fun r => decide (breakdownKey bcols r = k))
    { key := k, revenue := (grp.map (·.revenue)).sum,
      operatingProfit := (grp.map (·.operatingProfit)).sum })

/-- One row of `df_display_raw` in comparison mode (the source's
`final_cols` keep the key, each metric, its delta and its rate; the raw
comparison columns are dropped). -/
structure SummaryRow where
  key : List String
  operatingProfit : ℚ
  profitDiff : ℚ
  profitDiffRate : Pct
  revenue : ℚ
  revenueDiff : ℚ
  revenueDiffRate : Pct
deriving DecidableEq, Repr

/-- Build one merged breakdown row from target and comparison metrics
(source lines 1191-1195): deltas are target minus comparison and each
rate follows the `np.where` zero/infinity policy. -/
def summaryRowOf (k : List String) (tp tv cp cv : ℚ) : SummaryRow :=
  { key := k, operatingProfit := tp, profitDiff := tp - cp,
    profitDiffRate :=
      if cp = 0 then (if tp = 0 then Pct.val 0 else Pct.inf)
      else Pct.val ((tp - cp) / cp * 100),
    revenue := tv, revenueDiff := tv - cv,
    revenueDiffRate :=
      if cv = 0 then (if tv = 0 then Pct.val 0 else Pct.inf)
      else Pct.val ((tv - cv) / cv * 100) }

/-- The outer merge of target and comparison breakdown tables on the
dimension key with `fillna(0)` (source line 1189): matched keys
combine, target-only keys get comparison 0, comparison-only keys get
target 0. -/
def breakdown_merged (tg cg : List AggRow) : List SummaryRow :=
  tg.map (fun tr =>
    match cg.find? (fun cr => decide (cr.key = tr.key)) with
    | some cr =>
      summaryRowOf tr.key tr.operatingProfit tr.revenue cr.operatingProfit cr.revenue
    | none => summaryRowOf tr.key tr.operatingProfit tr.revenue 0 0) ++
  (cg.filter (fun cr => !(tg.any (fun tr => decide (tr.key = cr.key))))).map
    (fun cr => summaryRowOf cr.key 0 0 cr.operatingProfit cr.revenue)

/-- The grand-total operating-profit rate (source lines 1207, 1210):
column-wise sums of the per-row targets and deltas, implied comparison
`total - delta`, and the `np.where` zero/infinity policy on the
recomputed rate. -/
def grand_profit_rate (rows : List SummaryRow) : Pct :=
  let t := (rows.map (·.operatingProfit)).sum
  let d := (rows.map (·.profitDiff)).sum
  let comp := t - d
  if comp = 0 then (if t = 0 then Pct.val 0 else Pct.inf)
  else Pct.val (d / comp * 100)

/-- The grand-total revenue rate (source lines 1208, 1211). -/
def grand_revenue_rate (rows : List SummaryRow) : Pct :=
  let t := (rows.map (·.revenue)).sum
  let d := (rows.map (·.revenueDiff)).sum
  let comp := t - d
  if comp = 0 then (if t = 0 then Pct.val 0 else Pct.inf)
  else Pct.val (d / comp * 100)

/-- The breakdown table the display stage works on: merged when a
comparison is active and non-empty, otherwise target-only (source line
1186). -/
inductive DisplayRaw where
  | targetOnly (rows : List AggRow)
  | merged (rows : List SummaryRow)
deriving DecidableEq, Repr

/-- The grand-total row data: plain sums without a comparison, or sums
with deltas and recomputed rates with one. -/
inductive GrandResult where
  | plain (operatingProfit revenue : ℚ)
  | withComp (operatingProfit revenue profitDiff revenueDiff : ℚ)
      (profitRate revenueRate : Pct)
deriving DecidableEq, Repr

/-- The breakdown stage of the dashboard (source lines 1182-1214):
group the target rows, merge with the grouped comparison rows when the
comparison is active and non-empty, then compute the grand-total row.
When the comparison is active but the comparison subset is empty,
`df_display_raw` has no `'영업이익 증감'` column, yet the grand-total code
(guarded only by `is_comparison_active`) reads it — the resulting
`KeyError` is modelled by `none`. -/
def breakdown_stage (current_rows df_comparison : List LedgerRow)
    (is_comparison_active : Bool) (bcols : List Dim) :
    Option (DisplayRaw × GrandResult) :=
  let tg := breakdown_group current_rows bcols
  if is_comparison_active ∧ ¬ df_comparison.isEmpty then
    let m := breakdown_merged tg (breakdown_group df_comparison bcols)
    some (.merged m,
      .withComp ((m.map (·.operatingProfit)).sum) ((m.map (·.revenue)).sum)
        ((m.map (·.profitDiff)).sum) ((m.map (·.revenueDiff)).sum)
        (grand_profit_rate m) (grand_revenue_rate m))
  else
    if is_comparison_active then none
    else
      some (.targetOnly tg,
        .plain ((tg.map (·.operatingProfit)).sum) ((tg.map (·.revenue)).sum))

/-- C3.  Code bug: with the comparison year selected
(`is_comparison_active`) but an empty comparison subset (no comparison
months, or dimension filters eliminating every comparison row), the
grand-total computation reads the absent `'영업이익 증감'` column of the
target-only `df_display_raw` and raises `KeyError` instead of
producing a target-only result as every other downstream stage does. -/
theorem c3_empty_comparison_grand_total_raises :
    breakdown_stage [ledgerRowD] [] true [Dim.campus] = none ∧
    breakdown_stage [ledgerRowD] [] false [Dim.campus] ≠ none := by
  constructor
  · with_unfolding_all rfl
  · intro h
    rw [show breakdown_stage [ledgerRowD] [] false [Dim.campus] =
        some (.targetOnly (breakdown_group [ledgerRowD] [Dim.campus]),
          .plain 100 100) from by with_unfolding_all rfl] at h
    cases h

/-- The grand-total percentage formula as the spec states it: sum the
per-row targets and deltas column-wise, take the implied comparison
`Σtarget − Σdelta`, and resolve `(Σdelta)/(Σtarget − Σdelta) × 100`
with the comparison-zero policy (0 when the summed target is also 0,
`+infinity` otherwise). -/
def specGrandRate (targets deltas : List ℚ) : Pct :=
  let t := targets.sum
  let d := deltas.sum
  let comp := t - d
  if comp = 0 then (if t = 0 then Pct.val 0 else Pct.inf)
  else Pct.val (d / comp * 100)

/-- Three-row target breakdown of differing magnitudes for the
grand-total demonstration. -/
def demoTarget : List AggRow :=
  [{ key := ["a"], revenue := 200, operatingProfit := 200 },
   { key := ["b"], revenue := 300, operatingProfit := 300 },
   { key := ["c"], revenue := 150, operatingProfit := 150 }]

/-- Matching comparison breakdown for the grand-total demonstration. -/
def demoComp : List AggRow :=
  [{ key := ["a"], revenue := 100, operatingProfit := 100 },
   { key := ["b"], revenue := 200, operatingProfit := 200 },
   { key := ["c"], revenue := 50, operatingProfit := 50 }]

/-- C4.  The grand-total row's percentage delta for each metric equals
the spec's formula `(Σdelta)/(Σtarget − Σdelta) × 100` under the
comparison-zero policy; and on a three-row merged table of differing
magnitudes (per-row rates 100%, 50% and 200%) the grand total is
600/7 % ≈ 85.7%, which is neither the average (350/3 %) nor the sum
(350%) of the per-row percentage deltas. -/
theorem c4_grand_total_formula :
    (∀ rows : List SummaryRow,
      grand_profit_rate rows =
        specGrandRate (rows.map (·.operatingProfit)) (rows.map (·.profitDiff)) ∧
      grand_revenue_rate rows =
        specGrandRate (rows.map (·.revenue)) (rows.map (·.revenueDiff))) ∧
    (breakdown_merged demoTarget demoComp).map (·.profitDiffRate) =
      [Pct.val 100, Pct.val 50, Pct.val 200] ∧
    grand_profit_rate (breakdown_merged demoTarget demoComp) = Pct.val (600 / 7) ∧
    Pct.val ((100 + 50 + 200 : ℚ) / 3) ≠ Pct.val (600 / 7) ∧
    Pct.val (100 + 50 + 200 : ℚ) ≠ Pct.val (600 / 7) := by
  refine ⟨fun rows => ⟨rfl, rfl⟩, ?_, ?_, ?_, ?_⟩
  · with_unfolding_all rfl
  · with_unfolding_all rfl
  · with_unfolding_all decide
  · with_unfolding_all decide

lemma mem_breakdown_merged_shape {tg cg : List AggRow} {s : SummaryRow}
    (h : s ∈ breakdown_merged tg cg) :
    ∃ k tp tv cp cv, s = summaryRowOf k tp tv cp cv := by
  rw [breakdown_merged, List.mem_append] at h
  rcases h with h | h
  · rw [List.mem_map] at h
    obtain ⟨tr, _, hs⟩ := h
    cases hf : cg.find? (fun cr => decide (cr.key = tr.key)) with
    | some cr =>
      rw [hf] at hs
      exact ⟨_, _, _, _, _, hs.symm⟩
    | none =>
      rw [hf] at hs
      exact ⟨_, _, _, _, _, hs.symm⟩
  · rw [List.mem_map] at h
    obtain ⟨cr, _, hs⟩ := h
    exact ⟨_, _, _, _, _, hs.symm⟩

lemma summaryRowOf_policy (k : List String) (tp tv cp cv : ℚ) :
    (summaryRowOf k tp tv cp cv).profitDiffRate =
      specPercentagePolicy (summaryRowOf k tp tv cp cv).operatingProfit
        ((summaryRowOf k tp tv cp cv).operatingProfit -
          (summaryRowOf k tp tv cp cv).profitDiff) ∧
    (summaryRowOf k tp tv cp cv).revenueDiffRate =
      specPercentagePolicy (summaryRowOf k tp tv cp cv).revenue
        ((summaryRowOf k tp tv cp cv).revenue -
          (summaryRowOf k tp tv cp cv).revenueDiff) := by
  constructor
  · show (if cp = 0 then (if tp = 0 then Pct.val 0 else Pct.inf)
        else Pct.val ((tp - cp) / cp * 100)) =
      specPercentagePolicy tp (tp - (tp - cp))
    rw [sub_sub_cancel]
    by_cases hc : cp = 0
    · rw [if_pos hc, specPercentagePolicy, hc]
      simp
    · rw [if_neg hc, specPercentagePolicy, if_pos hc]
  · show (if cv = 0 then (if tv = 0 then Pct.val 0 else Pct.inf)
        else Pct.val ((tv - cv) / cv * 100)) =
      specPercentagePolicy tv (tv - (tv - cv))
    rw [sub_sub_cancel]
    by_cases hc : cv = 0
    · rw [if_pos hc, specPercentagePolicy, hc]
      simp
    · rw [if_neg hc, specPercentagePolicy, if_pos hc]

lemma mem_merge_trend_shape {t c : List TrendRow} {m : MergedTrendRow}
    (h : m ∈ merge_trend t c) :
    ∃ lbl tp tv cp cv, m = mergedTrendRow lbl tp tv cp cv := by
  rw [merge_trend, List.mem_append] at h
  rcases h with h | h
  · rw [List.mem_map] at h
    obtain ⟨tr, _, hs⟩ := h
    cases hf : c.find? (fun cr => decide (cr.display_label = tr.display_label)) with
    | some cr =>
      rw [hf] at hs
      exact ⟨_, _, _, _, _, hs.symm⟩
    | none =>
      rw [hf] at hs
      exact ⟨_, _, _, _, _, hs.symm⟩
  · rw [List.mem_map] at h
    obtain ⟨cr, _, hs⟩ := h
    exact ⟨_, _, _, _, _, hs.symm⟩

lemma mergedTrendRow_policy (lbl : String) (tp tv cp cv : ℚ) :
    (mergedTrendRow lbl tp tv cp cv).profitDiffRate =
      specPercentagePolicy (mergedTrendRow lbl tp tv cp cv).operatingProfit
        (mergedTrendRow lbl tp tv cp cv).compOperatingProfit ∧
    (mergedTrendRow lbl tp tv cp cv).revenueDiffRate =
      specPercentagePolicy (mergedTrendRow lbl tp tv cp cv).revenue
        (mergedTrendRow lbl tp tv cp cv).compRevenue := by
  constructor
  · show (if cp = 0 then (if tp = 0 then Pct.val 0 else Pct.inf)
        else Pct.val ((tp - cp) / cp * 100)) = specPercentagePolicy tp cp
    by_cases hc : cp = 0
    · rw [if_pos hc, specPercentagePolicy, hc]
      simp
    · rw [if_neg hc, specPercentagePolicy, if_pos hc]
  · show (if cv = 0 then (if tv = 0 then Pct.val 0 else Pct.inf)
        else Pct.val ((tv - cv) / cv * 100)) = specPercentagePolicy tv cv
    by_cases hc : cv = 0
    · rw [if_pos hc, specPercentagePolicy, hc]
      simp
    · rw [if_neg hc, specPercentagePolicy, if_pos hc]

/-- C2 (amended).  The explicit zero/infinity percentage policy holds at
the cost-item analysis, the merged trend table, the merged breakdown
table and the grand-total row; the insight generator's revenue, profit
and category rates instead use the conditional rate, which is
`(delta / comparison) × 100` for a nonzero comparison but 0 whenever
the comparison is 0 — even for a nonzero target, where the policy
requires `+infinity`.  (No NaN exists in the rational embedding; the
`np.where` sites select the division only when the comparison is
nonzero.) -/
theorem c2_policy_per_site :
    (∀ (dft : DataFrame) (dfc : Option DataFrame) (cc : List String),
      ∀ row ∈ analyze_cost_breakdown dft dfc cc,
        row.diffRate = specPercentagePolicy row.targetPeriod row.compPeriod) ∧
    (∀ t c : List TrendRow, ∀ m ∈ merge_trend t c,
      m.profitDiffRate = specPercentagePolicy m.operatingProfit m.compOperatingProfit ∧
      m.revenueDiffRate = specPercentagePolicy m.revenue m.compRevenue) ∧
    (∀ tg cg : List AggRow, ∀ s ∈ breakdown_merged tg cg,
      s.profitDiffRate =
        specPercentagePolicy s.operatingProfit (s.operatingProfit - s.profitDiff) ∧
      s.revenueDiffRate =
        specPercentagePolicy s.revenue (s.revenue - s.revenueDiff)) ∧
    (∀ rows : List SummaryRow,
      grand_profit_rate rows =
        specPercentagePolicy ((rows.map (·.operatingProfit)).sum)
          ((rows.map (·.operatingProfit)).sum - (rows.map (·.profitDiff)).sum) ∧
      grand_revenue_rate rows =
        specPercentagePolicy ((rows.map (·.revenue)).sum)
          ((rows.map (·.revenue)).sum - (rows.map (·.revenueDiff)).sum)) ∧
    (∀ diff comp : ℚ, comp ≠ 0 → condRate diff comp = diff / comp * 100) ∧
    (∀ diff : ℚ, condRate diff 0 = 0) ∧
    (∀ diff : ℚ, diff ≠ 0 → Pct.val (condRate diff 0) ≠ specPercentagePolicy diff 0) := by
  have key : ∀ t d : ℚ,
      (if t - d = 0 then (if t = 0 then Pct.val 0 else Pct.inf)
        else Pct.val (d / (t - d) * 100)) = specPercentagePolicy t (t - d) := by
    intro t d
    rw [specPercentagePolicy]
    by_cases hc : t - d = 0
    · rw [if_pos hc, if_neg (not_not_intro hc)]
    · rw [if_neg hc, if_pos hc, sub_sub_cancel]
  refine ⟨?_, ?_, ?_, ?_, ?_, ?_, ?_⟩
  · intro dft dfc cc row hrow
    rw [analyze_cost_breakdown, List.mem_map] at hrow
    obtain ⟨col, _, hcol⟩ := hrow
    subst hcol
    rfl
  · intro t c m hm
    obtain ⟨lbl, tp, tv, cp, cv, rfl⟩ := mem_merge_trend_shape hm
    exact mergedTrendRow_policy lbl tp tv cp cv
  · intro tg cg s hs
    obtain ⟨k, tp, tv, cp, cv, rfl⟩ := mem_breakdown_merged_shape hs
    exact summaryRowOf_policy k tp tv cp cv
  · intro rows
    exact ⟨key _ _, key _ _⟩
  · intro diff comp hc
    rw [condRate, if_pos hc]
  · intro diff
    rw [condRate, if_neg (not_not_intro rfl)]
  · intro diff hd
    have h1 : condRate diff 0 = 0 := by
      rw [condRate, if_neg (not_not_intro rfl)]
    have h2 : specPercentagePolicy diff 0 = Pct.inf := by
      rw [specPercentagePolicy, if_neg (not_not_intro rfl), if_neg hd]
    rw [h1, h2]
    intro h
    cases h

/-- Concrete cost-analysis row for the C2 witness. -/
def costRowW : CostRow :=
  { item := "경비", targetPeriod := 0, compPeriod := 0, diff := 0, diffRate := Pct.val 0 }

set_option maxRecDepth 2000 in
/-- C2 witness: the policy equality instantiated at a concrete row of a
concrete cost-item analysis. -/
theorem c2_witness :
    costRowW ∈ analyze_cost_breakdown dfW none ["경비"] ∧
    costRowW.diffRate = specPercentagePolicy costRowW.targetPeriod costRowW.compPeriod :=
  ⟨by
     rw [show analyze_cost_breakdown dfW none ["경비"] = [costRowW] from by
       with_unfolding_all rfl]
     exact List.mem_singleton.mpr rfl,
   c2_policy_per_site.1 dfW none ["경비"] costRowW
     (by
       rw [show analyze_cost_breakdown dfW none ["경비"] = [costRowW] from by
         with_unfolding_all rfl]
       exact List.mem_singleton.mpr rfl)⟩

end PnL
